import Mathlib

/-!
# Verification of the NERxiv retrieval → generation → persistence pipeline

Shallow embedding of the core components of the repository:

* `TextExtractor.delete_references`  (src/ragxiv/text/arxiv_extractor.py)
* `Chunker.chunk_text` via LangChain's `RecursiveCharacterTextSplitter`
  (src/ragxiv/chunker.py, with the splitter algorithm it delegates to)
* `CustomRetriever.get_relevant_chunks` (src/ragxiv/retriever.py)
* `LLMGenerator._check_tokens_limit` / `generate` (src/ragxiv/generator.py)
* `run_prompt_paper` (src/nerxiv/cli/run_prompt.py)
* `ArxivFetcher.fetch` (src/ragxiv/text/arxiv_extractor.py)

Text is represented as `List Char`; Python strings are translated with
`String.toList`.  Machine integers are `Nat`s (no overflow is relevant:
all counters are small and non-negative in the source).
-/

namespace NERxiv

/-! ## Basic character/string helpers -/

/-- Lower-casing used to model Python's `re.IGNORECASE` on the ASCII literals
appearing in the source patterns. -/
def lc (c : Char) : Char := c.toLower

/-- Case-insensitive "the literal `pat` occurs at the head of `s`". -/
def ciPrefix (pat s : List Char) : Bool :=
  (pat.map lc).isPrefixOf (s.map lc)

/-- Case-sensitive literal-prefix test. -/
def csPrefix (pat s : List Char) : Bool :=
  pat.isPrefixOf s

/-- ASCII letter test: models the regex class `[A-Z]` under `re.IGNORECASE`. -/
def isAsciiAlpha (c : Char) : Bool :=
  ('A' ≤ c && c ≤ 'Z') || ('a' ≤ c && c ≤ 'z')

/-- Zero or more literal spaces followed by an ASCII letter: models the
regex fragment `" *[A-Z]"` (with `re.IGNORECASE`). -/
def spacesThenAlpha : List Char → Bool
  | [] => false
  | c :: rest => if c = ' ' then spacesThenAlpha rest else isAsciiAlpha c

/-- Position of the first match of the head-predicate `p` in a text, scanning
left to right (the position semantics of Python's `re.search(...).start()`).
The end-of-string position is also tried, as `re.search` does. -/
def firstMatchAux (p : List Char → Bool) : List Char → Option Nat
  | [] => if p [] then some 0 else none
  | c :: rest =>
    if p (c :: rest) then some 0 else (firstMatchAux p rest).map (· + 1)

/-! ## `TextExtractor.delete_references`
(src/ragxiv/text/arxiv_extractor.py lines 296–317; the identical copy lives at
src/ragxiv/fetch_and_extract.py lines 259–280.)

`pattern_start = "(?:\nReferences\n|\nBibliography\n|\n\[1\] *[A-Z])"`
`pattern_end   = "(?:\nSupplemental Material[\:\n]*|\nSupplemental Information[\:\n]*|\nAppendices[\:\n]*)"`

Both are searched with `re.IGNORECASE`; only the match *start* positions are
used, so the trailing `[\:\n]*` of the end pattern is irrelevant to the
result and is not modelled. -/

/-- Head-match of `pattern_start`: one of the alternatives
`"\nReferences\n"`, `"\nBibliography\n"`, `"\n[1] *[A-Z]"` (case-insensitive). -/
def startPat (s : List Char) : Bool :=
  ciPrefix "\nReferences\n".toList s ||
  ciPrefix "\nBibliography\n".toList s ||
  (ciPrefix "\n[1]".toList s && spacesThenAlpha (s.drop 4))

/-- Head-match of `pattern_end`: one of the alternatives
`"\nSupplemental Material"`, `"\nSupplemental Information"`, `"\nAppendices"`
(case-insensitive). -/
def endPat (s : List Char) : Bool :=
  ciPrefix "\nSupplemental Material".toList s ||
  ciPrefix "\nSupplemental Information".toList s ||
  ciPrefix "\nAppendices".toList s

/-- `TextExtractor.delete_references`.  Note that `match_end` is searched on
the *whole* text (`re.search(pattern_end, text)`), independently of where
`match_start` was found. -/
def delete_references (text : List Char) : List Char :=
  match firstMatchAux startPat text with
  | none => text
  | some s =>
    match firstMatchAux endPat text with
    | some e => text.take s ++ text.drop e
    | none => text.take s

/-- The claimed behaviour (spec §4.3): after the first start-pattern match the
supplemental pattern is searched *strictly after* that point only. -/
def delete_references_spec (text : List Char) : List Char :=
  match firstMatchAux startPat text with
  | none => text
  | some s =>
    match firstMatchAux endPat (text.drop (s + 1)) with
    | some j => text.take s ++ text.drop (s + 1 + j)
    | none => text.take s

/-- Boolean side condition: the first supplemental-pattern match (if any) lies
strictly after the first references-pattern match (if any). -/
def endAfterStart (text : List Char) : Bool :=
  match firstMatchAux startPat text, firstMatchAux endPat text with
  | some s, some e => s < e
  | _, _ => true

/-! ## Lemmas about `firstMatchAux` and the patterns -/

theorem drop_take_eq (l : List Char) (n m : Nat) :
    (l.take m).drop n = (l.drop n).take (m - n) := by
  rcases le_or_lt n m with h | h
  · have h2 := List.take_drop n (m - n) l
    rw [Nat.add_sub_cancel' h] at h2
    exact h2.symm
  · have h1 : (l.take m).length ≤ n := by
      simpa using Nat.le_of_lt (Nat.lt_of_le_of_lt (List.length_take_le m l) h)
    rw [List.drop_eq_nil_of_le h1, Nat.sub_eq_zero_of_le (Nat.le_of_lt h),
      List.take_zero]

theorem ciPrefix_of_take {pat l : List Char} {k : Nat}
    (h : ciPrefix pat (l.take k) = true) : ciPrefix pat l = true := by
  unfold ciPrefix at *
  rw [List.map_take, List.isPrefixOf_iff_prefix] at h
  rw [List.isPrefixOf_iff_prefix]
  exact h.trans (List.take_prefix _ _)

theorem spacesThenAlpha_of_take :
    ∀ {l : List Char} {k : Nat}, spacesThenAlpha (l.take k) = true →
      spacesThenAlpha l = true
  | [], _, h => by simp [spacesThenAlpha] at h
  | c :: rest, 0, h => by simp [spacesThenAlpha] at h
  | c :: rest, k + 1, h => by
    simp only [List.take_succ_cons, spacesThenAlpha] at h ⊢
    split at h
    · simp only [*, if_pos]
      exact spacesThenAlpha_of_take h
    · rename_i hc
      rw [if_neg hc]
      exact h

theorem startPat_of_take {l : List Char} {k : Nat}
    (h : startPat (l.take k) = true) : startPat l = true := by
  unfold startPat at h ⊢
  simp only [Bool.or_eq_true, Bool.and_eq_true] at h ⊢
  rcases h with (h | h) | ⟨h1, h2⟩
  · exact Or.inl (Or.inl (ciPrefix_of_take h))
  · exact Or.inl (Or.inr (ciPrefix_of_take h))
  · refine Or.inr ⟨ciPrefix_of_take h1, ?_⟩
    rw [drop_take_eq] at h2
    exact spacesThenAlpha_of_take h2

theorem firstMatchAux_some (p : List Char → Bool) :
    ∀ {t : List Char} {s : Nat}, firstMatchAux p t = some s →
      p (t.drop s) = true ∧ ∀ i, i < s → p (t.drop i) = false
  | [], s, h => by
    unfold firstMatchAux at h
    split at h
    · cases h
      exact ⟨by simpa using ‹p [] = true›, fun i hi => absurd hi (Nat.not_lt_zero i)⟩
    · cases h
  | c :: rest, s, h => by
    unfold firstMatchAux at h
    split at h
    · cases h
      exact ⟨by simpa using ‹p (c :: rest) = true›,
        fun i hi => absurd hi (Nat.not_lt_zero i)⟩
    · rename_i hp
      rcases Option.map_eq_some'.mp h with ⟨s', hs', rfl⟩
      obtain ⟨h1, h2⟩ := firstMatchAux_some p hs'
      refine ⟨by simpa using h1, ?_⟩
      intro i hi
      cases i with
      | zero => simpa using Bool.of_not_eq_true hp
      | succ j =>
        have := h2 j (Nat.lt_of_succ_lt_succ hi)
        simpa using this

theorem firstMatchAux_none (p : List Char → Bool) :
    ∀ {t : List Char}, firstMatchAux p t = none →
      ∀ i, p (t.drop i) = false
  | [], h, i => by
    unfold firstMatchAux at h
    split at h
    · cases h
    · simpa using Bool.of_not_eq_true ‹¬p [] = true›
  | c :: rest, h, i => by
    unfold firstMatchAux at h
    split at h
    · cases h
    · rename_i hp
      have hrest : firstMatchAux p rest = none := by
        cases hr : firstMatchAux p rest <;> simp [hr] at h ⊢
      cases i with
      | zero => simpa using Bool.of_not_eq_true hp
      | succ j => simpa using firstMatchAux_none p hrest j

theorem firstMatchAux_none_of_forall (p : List Char → Bool) :
    ∀ {t : List Char}, (∀ i, p (t.drop i) = false) →
      firstMatchAux p t = none
  | [], h => by
    unfold firstMatchAux
    simpa using h 0
  | c :: rest, h => by
    unfold firstMatchAux
    rw [if_neg (by simpa using h 0)]
    rw [firstMatchAux_none_of_forall p (fun i => by simpa using h (i + 1))]
    rfl

theorem firstMatchAux_eq_some_of (p : List Char → Bool) :
    ∀ {t : List Char} {m : Nat}, p (t.drop m) = true →
      (∀ i, i < m → p (t.drop i) = false) → firstMatchAux p t = some m
  | [], m, h1, h2 => by
    have hm : m = 0 := by
      by_contra hm
      have := h2 0 (Nat.pos_of_ne_zero hm)
      simp only [List.drop_nil] at h1 this
      rw [h1] at this
      cases this
    subst hm
    unfold firstMatchAux
    rw [if_pos (by simpa using h1)]
  | c :: rest, m, h1, h2 => by
    unfold firstMatchAux
    cases m with
    | zero => rw [if_pos (by simpa using h1)]
    | succ m' =>
      rw [if_neg (by simpa using (Bool.not_eq_true _).mpr (h2 0 (Nat.succ_pos m')))]
      rw [firstMatchAux_eq_some_of p (by simpa using h1)
        (fun i hi => by simpa using h2 (i + 1) (Nat.succ_lt_succ hi))]
      rfl

theorem firstMatchAux_drop_none (p : List Char → Bool) {t : List Char}
    (k : Nat) (h : firstMatchAux p t = none) :
    firstMatchAux p (t.drop k) = none := by
  refine firstMatchAux_none_of_forall p (fun i => ?_)
  rw [List.drop_drop]
  exact firstMatchAux_none p h (k + i)

theorem firstMatchAux_drop_some (p : List Char → Bool) {t : List Char}
    {e : Nat} (k : Nat) (h : firstMatchAux p t = some e) (hk : k ≤ e) :
    firstMatchAux p (t.drop k) = some (e - k) := by
  obtain ⟨h1, h2⟩ := firstMatchAux_some p h
  refine firstMatchAux_eq_some_of p ?_ ?_
  · rw [List.drop_drop, Nat.add_sub_cancel' hk]
    exact h1
  · intro i hi
    rw [List.drop_drop]
    exact h2 (k + i) (by omega)

/-- If the first start-pattern match of `t` is at `s`, the truncation
`t.take s` contains no start-pattern match at all. -/
theorem firstMatchAux_startPat_take {t : List Char} {s : Nat}
    (h : firstMatchAux startPat t = some s) :
    firstMatchAux startPat (t.take s) = none := by
  obtain ⟨_, h2⟩ := firstMatchAux_some startPat h
  refine firstMatchAux_none_of_forall startPat (fun i => ?_)
  rcases Nat.lt_or_ge i s with hi | hi
  · by_contra hc
    have hc' : startPat ((t.take s).drop i) = true := by
      simpa using Bool.of_not_eq_false hc
    rw [drop_take_eq] at hc'
    have := startPat_of_take hc'
    rw [h2 i hi] at this
    cases this
  · rw [List.drop_eq_nil_of_le (by simpa using Nat.le_trans (List.length_take_le s t) hi)]
    rfl

/-! ## `Chunker.chunk_text` (src/ragxiv/chunker.py)

`Chunker.__init__` raises `ValueError("Text is required for chunking.")` on
empty text; `chunk_text` delegates the actual splitting to LangChain's
`RecursiveCharacterTextSplitter(chunk_size, chunk_overlap, add_start_index)`
with the default separators `["\n\n", "\n", " ", ""]`, default
`keep_separator=True`, literal (escaped) separators, `len` as length function
and whitespace-stripped joined chunks.  The splitter below embeds that
algorithm (`_split_text`, `_split_text_with_regex`, `_merge_splits`,
`_join_docs`), specialised to the four default separators; its fidelity is
checked against the repository's own `tests/text/test_chunker.py` vectors in
the theorems.  Only the chunk contents are modelled (the `start_index`
metadata added by `add_start_index` plays no role in any claim). -/

/-- Contiguous-substring containment: models `re.search(re.escape(sep), text)
is not None`, the separator-selection test of `_split_text`. -/
def containsSub (sep : List Char) : List Char → Bool
  | [] => sep.isPrefixOf []
  | c :: rest => sep.isPrefixOf (c :: rest) || containsSub sep rest

/-- Python `str` whitespace for `str.strip()` (ASCII range, the only
characters arising here). -/
def isPyWs (c : Char) : Bool :=
  c = ' ' || c = '\n' || c = '\t' || c = '\r' || c = '\x0b' || c = '\x0c'

/-- Python `str.strip()`. -/
def stripWs (l : List Char) : List Char :=
  ((l.dropWhile isPyWs).reverse.dropWhile isPyWs).reverse

/-- Split on a literal separator (Python `re.split` on an escaped separator,
without the capture group).  The separator is assumed non-empty; splitting
yields the parts between occurrences, scanning left to right.  The `fuel`
argument makes the recursion structural (a matched separator consumes
`sep.length ≥ 1` characters, so `text.length` units of fuel always
suffice); it exists only for termination and does not change the result. -/
def splitOnSepAux (sep : List Char) : Nat → List Char → List (List Char)
  | _, [] => [[]]
  | 0, l => [l]
  | fuel + 1, c :: rest =>
    if sep ≠ [] ∧ sep.isPrefixOf (c :: rest) then
      [] :: splitOnSepAux sep fuel ((c :: rest).drop sep.length)
    else
      match splitOnSepAux sep fuel rest with
      | [] => [[c]]
      | ys :: out => (c :: ys) :: out

/-- Split on a literal non-empty separator, with enough fuel for the whole
text. -/
def splitOnSep (sep text : List Char) : List (List Char) :=
  splitOnSepAux sep text.length text

/-- `_split_text_with_regex(text, separator, keep_separator=True)` for a
non-empty literal separator: `re.split` with a capture group keeps the
delimiters, and they are glued onto the *front* of the following part;
empty strings are filtered out. -/
def splitWithSepKept (sep text : List Char) : List (List Char) :=
  match splitOnSep sep text with
  | [] => []
  | p0 :: rest =>
    (p0 :: rest.map (fun p => sep ++ p)).filter (fun s => !s.isEmpty)

/-- Sum of the lengths of a list of splits (the running `total` of
`_merge_splits` tracks exactly this, since the merge separator is `""`). -/
def sumLen (l : List (List Char)) : Nat := (l.map List.length).sum

/-- `_join_docs(docs, separator="")`: join, strip whitespace, drop if empty
(returned as an empty or singleton list rather than `None`). -/
def joinDocs (cur : List (List Char)) : List (List Char) :=
  if (stripWs cur.flatten).isEmpty then [] else [stripWs cur.flatten]

/-- The pop loop of `_merge_splits` (separator length 0): drop leading docs
while the running total exceeds the overlap, or while it is positive and
adding the next split would overflow the chunk size. -/
def popWhile (size overlap l : Nat) : List (List Char) → Nat → List (List Char) × Nat
  | [], total => ([], total)
  | c :: cs, total =>
    if overlap < total ∨ (size < total + l ∧ 0 < total) then
      popWhile size overlap l cs (total - c.length)
    else (c :: cs, total)

/-- The main loop of `_merge_splits` (separator `""`, so the separator length
terms vanish): accumulate splits into `cur` while they fit in `size`; on
overflow flush the joined current doc and pop from its front down to the
overlap budget before continuing. -/
def mergeLoop (size overlap : Nat) : List (List Char) → List (List Char) → Nat → List (List Char)
  | [], cur, _ => joinDocs cur
  | d :: rest, cur, total =>
    if size < total + d.length then
      match cur with
      | [] => mergeLoop size overlap rest [d] (total + d.length)
      | _ :: _ =>
        joinDocs cur ++
          mergeLoop size overlap rest
            ((popWhile size overlap d.length cur total).1 ++ [d])
            ((popWhile size overlap d.length cur total).2 + d.length)
    else mergeLoop size overlap rest (cur ++ [d]) (total + d.length)

/-- `_merge_splits(splits, separator="")`. -/
def mergeSplits (size overlap : Nat) (splits : List (List Char)) : List (List Char) :=
  mergeLoop size overlap splits [] 0

/-- The split-dispatch loop of `_split_text`: splits shorter than `size` are
collected into runs and merged; a split of length ≥ `size` flushes the
current run and is handed to `handleBad` (recursion with the remaining
separators, or emitted as-is when no separator remains).  The Python source
guards each merge with `if _good_splits:`; calling `mergeSplits`
unconditionally is equivalent because `mergeSplits` of `[]` is `[]`. -/
def processSplits (size overlap : Nat) (handleBad : List Char → List (List Char)) :
    List (List Char) → List (List Char) → List (List Char)
  | good, [] => mergeSplits size overlap good
  | good, s :: rest =>
    if s.length < size then
      processSplits size overlap handleBad (good ++ [s]) rest
    else
      mergeSplits size overlap good ++ handleBad s ++
        processSplits size overlap handleBad [] rest

/-- `_split_text(text, [""])`: the splits are the individual characters, and
an oversized split (only possible when `size ≤ 1`) is appended as-is. -/
def splitLevelChars (size overlap : Nat) (text : List Char) : List (List Char) :=
  processSplits size overlap (fun s => [s]) [] (text.map (fun c => [c]))

/-- `_split_text(text, [" ", ""])`. -/
def splitLevelSpace (size overlap : Nat) (text : List Char) : List (List Char) :=
  if containsSub " ".toList text then
    processSplits size overlap (splitLevelChars size overlap) []
      (splitWithSepKept " ".toList text)
  else splitLevelChars size overlap text

/-- `_split_text(text, ["\n", " ", ""])`. -/
def splitLevelNewline (size overlap : Nat) (text : List Char) : List (List Char) :=
  if containsSub "\n".toList text then
    processSplits size overlap (splitLevelSpace size overlap) []
      (splitWithSepKept "\n".toList text)
  else if containsSub " ".toList text then
    processSplits size overlap (splitLevelChars size overlap) []
      (splitWithSepKept " ".toList text)
  else splitLevelChars size overlap text

/-- `_split_text(text, ["\n\n", "\n", " ", ""])`, i.e. `split_text` with the
default separators of `RecursiveCharacterTextSplitter`. -/
def split_text (size overlap : Nat) (text : List Char) : List (List Char) :=
  if containsSub "\n\n".toList text then
    processSplits size overlap (splitLevelNewline size overlap) []
      (splitWithSepKept "\n\n".toList text)
  else if containsSub "\n".toList text then
    processSplits size overlap (splitLevelSpace size overlap) []
      (splitWithSepKept "\n".toList text)
  else if containsSub " ".toList text then
    processSplits size overlap (splitLevelChars size overlap) []
      (splitWithSepKept " ".toList text)
  else splitLevelChars size overlap text

/-- `Chunker(text).chunk_text(chunk_size, chunk_overlap)`:
`Chunker.__init__` raises on empty text; the splitter's base constructor
raises when `chunk_overlap > chunk_size`; otherwise the chunks are the
page contents of `split_documents`, i.e. `split_text` of the text. -/
def chunk_text (size overlap : Nat) (text : List Char) :
    Except String (List (List Char)) :=
  if text.isEmpty then .error "Text is required for chunking."
  else if size < overlap then
    .error "Got a larger chunk overlap than chunk size, should be smaller."
  else .ok (split_text size overlap text)

/-! ## Claim C6: references stripping, search order of the two patterns -/

/-- C6 counterexample: the claim says the supplemental pattern is searched only
strictly after the first references-pattern match.  On a text whose
supplemental heading precedes the references heading the code instead uses the
global first supplemental match (position 0 here) and returns
`text[:start] + text[0:]`, duplicating the leading span, whereas the claimed
behaviour would truncate at the references match. -/
theorem c6_counterexample :
    delete_references_spec "\nSupplemental Material\nstuff\nReferences\ntail".toList =
      "\nSupplemental Material\nstuff".toList ∧
    delete_references "\nSupplemental Material\nstuff\nReferences\ntail".toList =
      ("\nSupplemental Material\nstuff".toList ++
        "\nSupplemental Material\nstuff\nReferences\ntail".toList) ∧
    delete_references "\nSupplemental Material\nstuff\nReferences\ntail".toList ≠
      delete_references_spec "\nSupplemental Material\nstuff\nReferences\ntail".toList := by
  decide

/-- C6 (amended): `delete_references` searches the supplemental pattern over
the whole text, independently of the references match.  Whenever the first
supplemental-pattern match (if any) lies strictly after the first
references-pattern match, the result coincides with the claimed behaviour
(remove exactly the span between the two matches, keeping the supplemental
section; truncate if only the start pattern is found; return the text
unchanged if neither is found). -/
theorem c6_delete_references (t : List Char) (h : endAfterStart t = true) :
    delete_references t = delete_references_spec t := by
  cases h1 : firstMatchAux startPat t with
  | none => simp [delete_references, delete_references_spec, h1]
  | some s =>
    cases h2 : firstMatchAux endPat t with
    | none =>
      have h3 := firstMatchAux_drop_none endPat (s + 1) h2
      simp [delete_references, delete_references_spec, h1, h2, h3]
    | some e =>
      have hlt : s < e := by
        simp only [endAfterStart, h1, h2] at h
        simpa using h
      have h3 := firstMatchAux_drop_some endPat (s + 1) h2 (by omega)
      simp only [delete_references, delete_references_spec, h1, h2, h3]
      have he : s + 1 + (e - (s + 1)) = e := by omega
      rw [he]

/-- C6 witness: on the repository's own test input, where the supplemental
heading follows the references heading, the code agrees with the claimed
behaviour. -/
theorem c6_witness :
    endAfterStart ("Body text.\nReferences\n[1] Author 1\n[2] Author 2\nSupplemental Material:\nAdditional stuff.\n".toList) = true ∧
    delete_references ("Body text.\nReferences\n[1] Author 1\n[2] Author 2\nSupplemental Material:\nAdditional stuff.\n".toList) =
      delete_references_spec ("Body text.\nReferences\n[1] Author 1\n[2] Author 2\nSupplemental Material:\nAdditional stuff.\n".toList) :=
  ⟨by decide, c6_delete_references _ (by decide)⟩

/-! ## Claim C9: idempotence of references stripping -/

/-- C9 counterexample: `delete_references` is not idempotent.  On this text
the first pass removes the references block between `\nReferences\n` and
`\nSupplemental Material`, but the result still contains a supplemental
heading before a later `\n[1] Y` citation start, so the second pass fires
again and duplicates text. -/
theorem c9_counterexample :
    delete_references (delete_references
      "main\nReferences\n[1] X\nSupplemental Material\ntail\n[1] Y end".toList) ≠
    delete_references
      "main\nReferences\n[1] X\nSupplemental Material\ntail\n[1] Y end".toList := by
  decide

/-- C9 (amended): `delete_references` is idempotent on every text in which the
supplemental-section pattern does not occur (in particular whenever the pass
either truncates at the references match or leaves the text unchanged);
it is not idempotent in general. -/
theorem c9_idempotent_no_supplemental (t : List Char)
    (h : firstMatchAux endPat t = none) :
    delete_references (delete_references t) = delete_references t := by
  cases h1 : firstMatchAux startPat t with
  | none =>
    have ht : delete_references t = t := by simp [delete_references, h1]
    rw [ht, ht]
  | some s =>
    have ht : delete_references t = t.take s := by
      simp [delete_references, h1, h]
    rw [ht]
    have h2 : firstMatchAux startPat (t.take s) = none :=
      firstMatchAux_startPat_take h1
    simp [delete_references, h2]

/-- C9 witness: spec end-to-end scenario A's input has no supplemental
heading, so stripping it twice equals stripping it once. -/
theorem c9_witness :
    firstMatchAux endPat ("Main text content.\nReferences\n[1] A. Author, Title, 2024.\n[2] B. Author, Title, 2023.\n".toList) = none ∧
    delete_references (delete_references
      ("Main text content.\nReferences\n[1] A. Author, Title, 2024.\n[2] B. Author, Title, 2023.\n".toList)) =
    delete_references
      ("Main text content.\nReferences\n[1] A. Author, Title, 2024.\n[2] B. Author, Title, 2023.\n".toList) :=
  ⟨by decide, c9_idempotent_no_supplemental _ (by decide)⟩

/-! ## Claim C8: chunking size bound, reconstruction, empty-text error -/

theorem sumLen_cons (x : List Char) (l : List (List Char)) :
    sumLen (x :: l) = x.length + sumLen l := by simp [sumLen]

theorem sumLen_append (a b : List (List Char)) :
    sumLen (a ++ b) = sumLen a + sumLen b := by simp [sumLen]

theorem stripWs_length_le (l : List Char) : (stripWs l).length ≤ l.length := by
  unfold stripWs
  calc ((l.dropWhile isPyWs).reverse.dropWhile isPyWs).reverse.length
      = ((l.dropWhile isPyWs).reverse.dropWhile isPyWs).length :=
        List.length_reverse _
    _ ≤ (l.dropWhile isPyWs).reverse.length :=
        (List.dropWhile_sublist _).length_le
    _ = (l.dropWhile isPyWs).length := List.length_reverse _
    _ ≤ l.length := (List.dropWhile_sublist _).length_le

theorem joinDocs_length_le (cur : List (List Char)) :
    ∀ c ∈ joinDocs cur, c.length ≤ sumLen cur := by
  intro c hc
  unfold joinDocs at hc
  split at hc
  · cases hc
  · rw [List.mem_singleton] at hc
    subst hc
    calc (stripWs cur.flatten).length ≤ cur.flatten.length := stripWs_length_le _
      _ = sumLen cur := by simp [sumLen]

theorem popWhile_spec (size overlap l : Nat) :
    ∀ (cur : List (List Char)) (total : Nat), total = sumLen cur →
      (popWhile size overlap l cur total).2 =
        sumLen (popWhile size overlap l cur total).1 ∧
      ((popWhile size overlap l cur total).2 + l ≤ size ∨
        (popWhile size overlap l cur total).2 = 0)
  | [], total, ht => by
    unfold popWhile
    simp [sumLen] at ht
    simp [ht, sumLen]
  | c :: cs, total, ht => by
    unfold popWhile
    split
    · exact popWhile_spec size overlap l cs (total - c.length)
        (by rw [ht, sumLen_cons]; omega)
    · rename_i hcond
      refine ⟨ht, ?_⟩
      omega

theorem mergeLoop_length_le (size overlap : Nat) :
    ∀ (input cur : List (List Char)) (total : Nat), total = sumLen cur →
      total ≤ size → (∀ d ∈ input, d.length < size) →
      ∀ c ∈ mergeLoop size overlap input cur total, c.length ≤ size
  | [], cur, total, ht, hs, _, c, hc => by
    unfold mergeLoop at hc
    have := joinDocs_length_le cur c hc
    omega
  | d :: rest, cur, total, ht, hs, hin, c, hc => by
    have hd : d.length < size := hin d (by simp)
    have hrest : ∀ x ∈ rest, x.length < size := fun x hx => hin x (by simp [hx])
    unfold mergeLoop at hc
    split at hc
    · rename_i hov
      cases cur with
      | nil =>
        simp [sumLen] at ht
        omega
      | cons a as =>
        rcases List.mem_append.mp hc with h1 | h2
        · have := joinDocs_length_le (a :: as) c h1
          omega
        · obtain ⟨hps, hpo⟩ := popWhile_spec size overlap d.length (a :: as) total ht
          refine mergeLoop_length_le size overlap rest _ _ ?_ ?_ hrest c h2
          · have h1 : sumLen [d] = d.length := by simp [sumLen]
            rw [sumLen_append, h1, hps]
          · omega
    · rename_i hov
      exact mergeLoop_length_le size overlap rest (cur ++ [d]) (total + d.length)
        (by rw [ht, sumLen_append, sumLen_cons]; simp [sumLen]) (by omega) hrest c hc

theorem mergeSplits_length_le (size overlap : Nat) (splits : List (List Char))
    (h : ∀ d ∈ splits, d.length < size) :
    ∀ c ∈ mergeSplits size overlap splits, c.length ≤ size :=
  mergeLoop_length_le size overlap splits [] 0 rfl (Nat.zero_le _) h

theorem processSplits_length_le (size overlap : Nat)
    (handleBad : List Char → List (List Char)) :
    ∀ (good splits : List (List Char)),
      (∀ d ∈ good, d.length < size) →
      (∀ s ∈ splits, s.length < size ∨ ∀ c ∈ handleBad s, c.length ≤ size) →
      ∀ c ∈ processSplits size overlap handleBad good splits, c.length ≤ size
  | good, [], hg, _, c, hc => by
    unfold processSplits at hc
    exact mergeSplits_length_le size overlap good hg c hc
  | good, s :: rest, hg, hs, c, hc => by
    unfold processSplits at hc
    split at hc
    · rename_i hlen
      refine processSplits_length_le size overlap handleBad (good ++ [s]) rest
        ?_ (fun x hx => hs x (by simp [hx])) c hc
      intro x hx
      rcases List.mem_append.mp hx with h1 | h2
      · exact hg x h1
      · rw [List.mem_singleton] at h2
        subst h2
        exact hlen
    · rename_i hlen
      rcases List.mem_append.mp hc with h12 | h3
      · rcases List.mem_append.mp h12 with h1 | h2
        · exact mergeSplits_length_le size overlap good hg c h1
        · rcases hs s (by simp) with hlt | hb
          · exact absurd hlt hlen
          · exact hb c h2
      · exact processSplits_length_le size overlap handleBad [] rest
          (by simp) (fun x hx => hs x (by simp [hx])) c h3

theorem splitLevelChars_length_le (size overlap : Nat) (hsz : 1 ≤ size)
    (text : List Char) :
    ∀ c ∈ splitLevelChars size overlap text, c.length ≤ size := by
  intro c hc
  refine processSplits_length_le size overlap _ [] _ (by simp) ?_ c hc
  intro s hs
  obtain ⟨ch, _, rfl⟩ := List.mem_map.mp hs
  by_cases h1 : 1 < size
  · left
    simpa using h1
  · right
    intro x hx
    rw [List.mem_singleton] at hx
    subst hx
    simpa using hsz

theorem splitLevelSpace_length_le (size overlap : Nat) (hsz : 1 ≤ size)
    (text : List Char) :
    ∀ c ∈ splitLevelSpace size overlap text, c.length ≤ size := by
  unfold splitLevelSpace
  split
  · exact processSplits_length_le size overlap _ [] _ (by simp)
      (fun s _ => Or.inr (splitLevelChars_length_le size overlap hsz s))
  · exact splitLevelChars_length_le size overlap hsz text

theorem splitLevelNewline_length_le (size overlap : Nat) (hsz : 1 ≤ size)
    (text : List Char) :
    ∀ c ∈ splitLevelNewline size overlap text, c.length ≤ size := by
  unfold splitLevelNewline
  split
  · exact processSplits_length_le size overlap _ [] _ (by simp)
      (fun s _ => Or.inr (splitLevelSpace_length_le size overlap hsz s))
  · split
    · exact processSplits_length_le size overlap _ [] _ (by simp)
        (fun s _ => Or.inr (splitLevelChars_length_le size overlap hsz s))
    · exact splitLevelChars_length_le size overlap hsz text

theorem split_text_length_le (size overlap : Nat) (hsz : 1 ≤ size)
    (text : List Char) :
    ∀ c ∈ split_text size overlap text, c.length ≤ size := by
  unfold split_text
  split
  · exact processSplits_length_le size overlap _ [] _ (by simp)
      (fun s _ => Or.inr (splitLevelNewline_length_le size overlap hsz s))
  · split
    · exact processSplits_length_le size overlap _ [] _ (by simp)
        (fun s _ => Or.inr (splitLevelSpace_length_le size overlap hsz s))
    · split
      · exact processSplits_length_le size overlap _ [] _ (by simp)
          (fun s _ => Or.inr (splitLevelChars_length_le size overlap hsz s))
      · exact splitLevelChars_length_le size overlap hsz text

set_option maxRecDepth 100000 in
/-- C8 counterexample: on the repository's own chunker test input (the
`tests/text/test_chunker.py` vector with `chunk_size=50`, `chunk_overlap=1`,
non-empty text, `overlap < size`), the chunks produced are exactly the
repository's expected chunks, and the sum of all chunk lengths (227) is
strictly smaller than the length of the source text (231): the splitter
discards the whitespace at chunk boundaries, so no concatenation of the
chunks with overlaps removed — which can only ever shorten the plain
concatenation — can reconstruct the source text. -/
theorem c8_counterexample :
    chunk_text 50 1 ("We perform first-principles calculations using Density Functional Theory to investigate the electronic structure of the layered compound. The exchange-correlation functional is treated within the Generalized Gradient Approximation.").toList =
      Except.ok
        ["We perform first-principles calculations using".toList,
         "Density Functional Theory to investigate the".toList,
         "electronic structure of the layered compound. The".toList,
         "exchange-correlation functional is treated within".toList,
         "the Generalized Gradient Approximation.".toList] ∧
    sumLen
        ["We perform first-principles calculations using".toList,
         "Density Functional Theory to investigate the".toList,
         "electronic structure of the layered compound. The".toList,
         "exchange-correlation functional is treated within".toList,
         "the Generalized Gradient Approximation.".toList] <
      ("We perform first-principles calculations using Density Functional Theory to investigate the electronic structure of the layered compound. The exchange-correlation functional is treated within the Generalized Gradient Approximation.").toList.length := by
  constructor
  · rfl
  · decide

/-- C8 (amended): chunking an empty text fails with
`ValueError("Text is required for chunking.")` rather than returning chunks,
and for `overlap < size` every returned chunk's length is at most `size`
(strict upper bound, no exception); the chunks do **not** in general
reconstruct the source text when concatenated with overlaps removed, because
whitespace at chunk boundaries is stripped (see the counterexample). -/
theorem c8_chunk_text (size overlap : Nat) (text : List Char)
    (hov : overlap < size) :
    chunk_text size overlap [] = Except.error "Text is required for chunking." ∧
    ∀ chunks, chunk_text size overlap text = Except.ok chunks →
      ∀ c ∈ chunks, c.length ≤ size := by
  constructor
  · rfl
  · intro chunks hch c hc
    unfold chunk_text at hch
    split at hch
    · cases hch
    · split at hch
      · cases hch
      · cases hch
        exact split_text_length_le size overlap (by omega) text c hc

/-- C8 witness: at `size = 50`, `overlap = 1` the hypotheses hold, the empty
text errors, chunking `"hello world"` succeeds with one chunk, and the bound
applies to it. -/
theorem c8_witness :
    (1 : Nat) < 50 ∧
    chunk_text 50 1 "hello world".toList =
      Except.ok ["hello world".toList] ∧
    chunk_text 50 1 [] = Except.error "Text is required for chunking." ∧
    ("hello world".toList).length ≤ 50 :=
  ⟨by decide, by rfl,
   (c8_chunk_text 50 1 "hello world".toList (by decide)).1,
   (c8_chunk_text 50 1 "hello world".toList (by decide)).2
     ["hello world".toList] (by rfl) "hello world".toList
     (List.mem_singleton.mpr rfl)⟩

/-! ## `LLMGenerator` (src/ragxiv/generator.py)

`__init__(model, text)` raises `ValueError("Text is required for LLM
generation.")` when `text` is falsy, then logs `info` `"LLM model: ..."`.
`_check_tokens_limit` looks the model up in `_huggingface_model_map` and
loads the HuggingFace tokenizer; any failure of either step is caught and
logged as `critical` (`"Failed to load the tokenizer ..."`) and the check
returns `True` (generation proceeds).  Otherwise the prompt's token count is
compared with the model's declared limit; exceeding it logs `critical`
(`"Prompt is too long ..."`) and returns `False`.  `generate` returns `""`
when the check fails or the prompt is empty, and otherwise invokes the LLM
and post-processes the raw answer with `_delete_thinking` and
`_clean_answer` (with the default `regex`/`del_regex` arguments).
The tokenizer facility, the token-count function, the declared limit and the
LLM call are the opaque external collaborators; log messages are modelled by
their fixed prefixes (the interpolated values are elided). -/

inductive LogLevel
  | info
  | warning
  | error
  | critical
deriving DecidableEq, BEq, Repr

structure LogEvent where
  level : LogLevel
  event : String
deriving DecidableEq, BEq, Repr

/-- The token-budget environment of `_check_tokens_limit`: whether the
tokenizer facility loads (model present in `_huggingface_model_map` *and*
`AutoTokenizer.from_pretrained` succeeds — both failures land in the same
`except` clause), the token-count function, and the declared context-window
limit of the selected model. -/
structure TokenEnv where
  available : Bool
  countTokens : List Char → Nat
  tokensLimit : Nat

/-- `LLMGenerator._check_tokens_limit(prompt)`, returning the boolean result
together with the log events it emits. -/
def check_tokens_limit (env : TokenEnv) (prompt : List Char) :
    Bool × List LogEvent :=
  if !env.available then
    (true, [⟨.critical, "Failed to load the tokenizer for model. We will continue with prompting anyways"⟩])
  else if env.tokensLimit < env.countTokens prompt then
    (false, [⟨.critical, "Prompt is too long for the context window."⟩])
  else (true, [])

/-- Helper for `_delete_thinking` and the answer-marker removal: first
occurrence of the literal `pat` in the text, returned as
`(before, after-the-pattern)`. -/
def findSplit (pat : List Char) : List Char → Option (List Char × List Char)
  | [] => if pat.isPrefixOf [] then some ([], []) else none
  | c :: rest =>
    if pat.isPrefixOf (c :: rest) then some ([], (c :: rest).drop pat.length)
    else (findSplit pat rest).map (fun pr => (c :: pr.1, pr.2))

/-- `_delete_thinking`: `re.sub(r"<think>.*?</think>\n*", "", answer,
flags=re.DOTALL)`.  Each (lazy) match spans from a `<think>` to the next
`</think>` plus any trailing newlines; scanning resumes after the removed
block.  The `fuel` argument (initialised to the text length, which always
suffices since each removal consumes at least one character) makes the
recursion structural. -/
def deleteThinkingAux : Nat → List Char → List Char
  | _, [] => []
  | 0, cs => cs
  | fuel + 1, cs =>
    match findSplit "<think>".toList cs with
    | none => cs
    | some (pre, rest) =>
      match findSplit "</think>".toList rest with
      | none => cs
      | some (_, rest2) =>
        pre ++ deleteThinkingAux fuel (rest2.dropWhile (· = '\n'))

/-- `LLMGenerator.generate`'s inner `_delete_thinking(answer)`. -/
def delete_thinking (answer : List Char) : List Char :=
  deleteThinkingAux answer.length answer

/-- Removal step of `_clean_answer`: `re.sub(r"\n\nAnswer\: *", "", answer)`.
Note that the `re.sub` carries **no** `re.IGNORECASE` flag (unlike the
search), so the deletion is case-sensitive.  Fuel as above. -/
def removeAnswerMarkersAux : Nat → List Char → List Char
  | _, [] => []
  | 0, cs => cs
  | fuel + 1, c :: rest =>
    if csPrefix "\n\nAnswer:".toList (c :: rest) then
      removeAnswerMarkersAux fuel (((c :: rest).drop 9).dropWhile (· = ' '))
    else c :: removeAnswerMarkersAux fuel rest

/-- Head-match of the search pattern `r"\n\nAnswer\: *"` under
`re.IGNORECASE` (the trailing `" *"` cannot affect the match start). -/
def answerMarkerCI (s : List Char) : Bool := ciPrefix "\n\nAnswer:".toList s

/-- `LLMGenerator.generate`'s inner `_clean_answer(regex, del_regex, answer)`
with the default arguments: search the marker case-insensitively; if found,
keep the text from the match start on and then delete all case-sensitive
marker occurrences from it; otherwise return the answer unchanged. -/
def clean_answer (answer : List Char) : List Char :=
  match firstMatchAux answerMarkerCI answer with
  | some start =>
    removeAnswerMarkersAux (answer.drop start).length (answer.drop start)
  | none => answer

/-- `LLMGenerator.generate(prompt)` (default `regex`/`del_regex`), returning
the cleaned answer together with the emitted log events.  The token check
runs first in the source (`if not self._check_tokens_limit(prompt=prompt) or
not prompt:`), so its logs are emitted even for an empty prompt. -/
def generate (env : TokenEnv) (llmInvoke : List Char → List Char)
    (prompt : List Char) : List Char × List LogEvent :=
  if !(check_tokens_limit env prompt).1 || prompt.isEmpty then
    ([], (check_tokens_limit env prompt).2)
  else
    (clean_answer (delete_thinking (llmInvoke prompt)),
      (check_tokens_limit env prompt).2)

/-! ## `CustomRetriever.get_relevant_chunks` (src/ragxiv/retriever.py) -/

/-- A Python value that is statically annotated `str` but may also be the
empty `list` (the `return []` on the no-chunks path). -/
inductive PyStrOrList
  | pyStr (s : List Char)
  | pyList (l : List (List Char))
deriving DecidableEq, BEq, Repr

/-- Python truthiness of a `str`-or-`list` value (`if not text: ...`). -/
def pyTruthy : PyStrOrList → Bool
  | .pyStr s => !s.isEmpty
  | .pyList l => !l.isEmpty

/-- Descending insertion by similarity score (stable on ties): models
`similarities.sort(descending=True)` followed by indexing the chunks. -/
def insertDesc (sim : List Char → Int) (x : List Char) :
    List (List Char) → List (List Char)
  | [] => [x]
  | y :: ys => if sim y ≤ sim x then x :: y :: ys else y :: insertDesc sim x ys

/-- Sort chunks by similarity to the fixed query, descending. -/
def sortDesc (sim : List Char → Int) : List (List Char) → List (List Char)
  | [] => []
  | x :: xs => insertDesc sim x (sortDesc sim xs)

/-- Python `"\n\n".join(...)`. -/
def joinBlank : List (List Char) → List Char
  | [] => []
  | [x] => x
  | x :: y :: xs => x ++ "\n\n".toList ++ joinBlank (y :: xs)

/-- `CustomRetriever.get_relevant_chunks(chunks, n_top_chunks)`.  On an empty
chunks list it logs a warning and returns the Python empty **list** `[]`
(despite the declared `-> str` return type); otherwise it embeds the fixed
query and the chunks (the cosine similarity of a chunk against the query is
the opaque `sim` function), sorts descending, takes the top
`n_top_chunks` and returns them joined by blank lines, logging one info
event. -/
def get_relevant_chunks (sim : List Char → Int) (chunks : List (List Char))
    (n_top_chunks : Nat) : PyStrOrList × List LogEvent :=
  if chunks.isEmpty then
    (.pyList [], [⟨.warning, "No chunks provided."⟩])
  else
    (.pyStr (joinBlank ((sortDesc sim chunks).take n_top_chunks)),
      [⟨.info, "Top chunks retrieved"⟩])

/-- The validation in `LLMGenerator.__init__`: raises
`ValueError("Text is required for LLM generation.")` when `text` is falsy
(in particular on the retriever's empty-list return value). -/
def llm_generator_init (text : PyStrOrList) : Except String Unit :=
  if !pyTruthy text then .error "Text is required for LLM generation."
  else .ok ()

/-! ## Claim C7: generator fails closed; tokenizer-unavailable policy -/

/-- C7 counterexample: when the token-estimation facility is unavailable the
code logs at **critical** level (`logger.critical(f"Failed to load the
tokenizer ...")`), not at warning level as the claim states.  Shown on a
concrete environment and prompt: generation proceeds (the raw answer is
cleaned and returned), and the single emitted log event has level
`critical` ≠ `warning`. -/
theorem c7_counterexample :
    (generate ⟨false, fun _ => 0, 100⟩ (fun _ => "the answer".toList)
        "some prompt".toList).1 = "the answer".toList ∧
    (generate ⟨false, fun _ => 0, 100⟩ (fun _ => "the answer".toList)
        "some prompt".toList).2 =
      [⟨LogLevel.critical, "Failed to load the tokenizer for model. We will continue with prompting anyways"⟩] ∧
    LogLevel.critical ≠ LogLevel.warning := by
  refine ⟨rfl, rfl, ?_⟩
  decide

/-- C7 (amended): `generate` fails closed — returns the empty string and does
not raise — when the prompt built from the context is empty or when its
estimated token count exceeds the model's declared context window (one
critical-level event); and when the token-estimation facility itself is
unavailable, generation proceeds anyway after logging one **critical**-level
(not warning-level) event. -/
theorem c7_generate_fails_closed (env : TokenEnv)
    (llmInvoke : List Char → List Char) (prompt : List Char) :
    (prompt = [] → (generate env llmInvoke prompt).1 = []) ∧
    (env.available = true → env.tokensLimit < env.countTokens prompt →
      (generate env llmInvoke prompt).1 = [] ∧
      (generate env llmInvoke prompt).2 =
        [⟨LogLevel.critical, "Prompt is too long for the context window."⟩]) ∧
    (env.available = false →
      (generate env llmInvoke prompt).2 =
        [⟨LogLevel.critical, "Failed to load the tokenizer for model. We will continue with prompting anyways"⟩] ∧
      (prompt ≠ [] →
        (generate env llmInvoke prompt).1 =
          clean_answer (delete_thinking (llmInvoke prompt)))) := by
  refine ⟨?_, ?_, ?_⟩
  · intro hp
    subst hp
    simp [generate]
  · intro ha hc
    have hck : check_tokens_limit env prompt =
        (false, [⟨LogLevel.critical, "Prompt is too long for the context window."⟩]) := by
      simp [check_tokens_limit, ha, hc]
    simp [generate, hck]
  · intro ha
    have hck : check_tokens_limit env prompt =
        (true, [⟨LogLevel.critical, "Failed to load the tokenizer for model. We will continue with prompting anyways"⟩]) := by
      simp [check_tokens_limit, ha]
    constructor
    · by_cases hp : prompt = []
      · subst hp
        simp [generate, hck]
      · simp [generate, hck, hp]
    · intro hp
      simp [generate, hck, hp]

/-- C7 witness: the three branches instantiated at concrete inputs. -/
theorem c7_witness :
    (generate ⟨true, fun p => p.length, 100⟩ (fun _ => "x".toList) []).1 = [] ∧
    ((generate ⟨true, fun p => p.length, 2⟩ (fun _ => "x".toList)
        "long prompt".toList).1 = [] ∧
      (generate ⟨true, fun p => p.length, 2⟩ (fun _ => "x".toList)
        "long prompt".toList).2 =
        [⟨LogLevel.critical, "Prompt is too long for the context window."⟩]) :=
  ⟨(c7_generate_fails_closed ⟨true, fun p => p.length, 100⟩ (fun _ => "x".toList) []).1 rfl,
    (c7_generate_fails_closed ⟨true, fun p => p.length, 2⟩ (fun _ => "x".toList)
      "long prompt".toList).2.1 rfl (by decide)⟩

/-! ## Claim C10: retriever's empty-list return value and the generator
constructor -/

/-- C10: `get_relevant_chunks` returns the Python empty list (not a `str`)
exactly when `chunks` is empty — the only input for which its return value is
not of the declared `str` type; every non-empty input yields the selected
chunks joined by blank-line separators as a string; and
`LLMGenerator.__init__` rejects the empty-list value by raising, since it
requires non-empty (truthy) text. -/
theorem c10_retriever_empty_list (sim : List Char → Int) (n_top_chunks : Nat)
    (chunks : List (List Char)) :
    ((∃ s, (get_relevant_chunks sim chunks n_top_chunks).1 =
        PyStrOrList.pyStr s) ↔ chunks ≠ []) ∧
    (get_relevant_chunks sim [] n_top_chunks).1 = PyStrOrList.pyList [] ∧
    (chunks ≠ [] → (get_relevant_chunks sim chunks n_top_chunks).1 =
      PyStrOrList.pyStr (joinBlank ((sortDesc sim chunks).take n_top_chunks))) ∧
    llm_generator_init (PyStrOrList.pyList []) =
      Except.error "Text is required for LLM generation." := by
  refine ⟨?_, by simp [get_relevant_chunks], ?_, by simp [llm_generator_init, pyTruthy]⟩
  · constructor
    · intro ⟨s, hs⟩ hne
      subst hne
      simp [get_relevant_chunks] at hs
    · intro hne
      refine ⟨joinBlank ((sortDesc sim chunks).take n_top_chunks), ?_⟩
      simp [get_relevant_chunks, hne]
  · intro hne
    simp [get_relevant_chunks, hne]

/-- C10 witness: instantiated at a singleton chunk list and at the empty
list. -/
theorem c10_witness :
    (get_relevant_chunks (fun _ => 0) ["a chunk".toList] 5).1 =
      PyStrOrList.pyStr "a chunk".toList ∧
    (get_relevant_chunks (fun _ => 0) [] 5).1 = PyStrOrList.pyList [] ∧
    llm_generator_init (PyStrOrList.pyList []) =
      Except.error "Text is required for LLM generation." :=
  ⟨by
    have h := (c10_retriever_empty_list (fun _ => 0) 5 ["a chunk".toList]).2.2.1
      (by decide)
    simpa using h,
   (c10_retriever_empty_list (fun _ => 0) 5 ["a chunk".toList]).2.1,
   (c10_retriever_empty_list (fun _ => 0) 5 ["a chunk".toList]).2.2.2⟩

/-! ## `run_prompt_paper` (src/nerxiv/cli/run_prompt.py)

The per-document run of the retrieval → generation → persistence pipeline.
The open HDF5 file of one paper is modelled as a `PaperState`: the stored
normalized text, the ordered entries of its `raw_llm_answers` group, and
whether the file has been relocated into a `model/` subfolder.  The
validation branches for a missing file / wrong extension log an error and
return without touching the state, exactly like the missing
`retriever_query`/`prompt` branch kept below, so they are not modelled
separately.  The observable effects are returned as an ordered event trace:
log events, the creation of a run group with all its attributes except
`elapsed_time` plus its three nested datasets (`runRecorded`), the relocation
of the file (`fileMoved`), and the late write of the `elapsed_time` attribute
(`elapsedRecorded`), in source order.  Exceptions raised inside the `with`
block (`Chunker.__init__`, `LLMGenerator.__init__`) propagate out of
`run_prompt_paper` and are modelled as `Except.error`. -/

/-- One entry of a paper's `raw_llm_answers` run log: the group name, the
attributes and the three datasets nested under the query-named subgroup. -/
structure RunRecord where
  runId : String
  retriever_model : String
  model : String
  n_top_chunks : Nat
  query : String
  timestamp : String
  retriever_query_ds : List Char
  prompt_ds : List Char
  answer_ds : List Char
  elapsed_time : Nat
deriving DecidableEq, BEq, Repr

/-- The state of one paper's HDF5 file. -/
structure PaperState where
  text : List Char
  runs : List RunRecord
  movedToModelDir : Bool
deriving DecidableEq, BEq, Repr

/-- Observable effects of one `run_prompt_paper` call, in order. -/
inductive PromptEvent
  | logged (e : LogEvent)
  | runRecorded (runId : String) (answer : List Char)
  | fileMoved
  | elapsedRecorded (runId : String)
deriving DecidableEq, BEq, Repr

/-- Python `f"{n:04d}"`. -/
def pad4 (n : Nat) : String :=
  if (toString n).length < 4 then
    String.mk (List.replicate (4 - (toString n).length) '0') ++ toString n
  else toString n

/-- `f"run_{len(existing_runs):04d}"`. -/
def runName (k : Nat) : String := "run_" ++ pad4 k

/-- `chunker.chunk_text()` inside `run_prompt_paper` uses the default
`chunk_size=1000`, `chunk_overlap=200`. -/
def ragChunks (text : List Char) : List (List Char) :=
  split_text 1000 200 text

/-- The retrieval step of `run_prompt_paper`:
`retriever.get_relevant_chunks(chunks, n_top_chunks)`. -/
def ragContext (sim : List Char → Int) (text : List Char)
    (n_top_chunks : Nat) : PyStrOrList × List LogEvent :=
  get_relevant_chunks sim (ragChunks text) n_top_chunks

/-- Extract the string payload of the retriever's return value (only reached
after `LLMGenerator.__init__` has established truthiness, so the list case
is unreachable there). -/
def textOf : PyStrOrList → List Char
  | .pyStr s => s
  | .pyList _ => []

/-- `prompt.build(text=text)` applied to the retrieved context. -/
def ragBuiltPrompt (build : List Char → List Char) (sim : List Char → Int)
    (text : List Char) (n_top_chunks : Nat) : List Char :=
  build (textOf (ragContext sim text n_top_chunks).1)

/-- `generator.generate(prompt=built_prompt)` on the built prompt. -/
def ragAnswer (env : TokenEnv) (llmInvoke : List Char → List Char)
    (build : List Char → List Char) (sim : List Char → Int)
    (text : List Char) (n_top_chunks : Nat) : List Char × List LogEvent :=
  generate env llmInvoke (ragBuiltPrompt build sim text n_top_chunks)

/-- All log events of one successful pipeline pass, in source order:
the chunker's info line, the retriever constructor's info line, the
retrieval logs, the generator constructor's info line, the token-check
logs. -/
def pipelineLogs (env : TokenEnv) (llmInvoke : List Char → List Char)
    (build : List Char → List Char) (sim : List Char → Int)
    (text : List Char) (n_top_chunks : Nat) : List LogEvent :=
  ⟨.info, "Text chunked into parts"⟩ ::
    ⟨.info, "Loaded SentenceTransformer model"⟩ ::
    ((ragContext sim text n_top_chunks).2 ++
      (⟨.info, "LLM model"⟩ ::
        (ragAnswer env llmInvoke build sim text n_top_chunks).2))

/-- `run_prompt_paper(paper, retriever_model, n_top_chunks, model,
retriever_query, prompt, query, ...)`.  The opaque collaborators are the
chunk-similarity function `sim` (SentenceTransformer embeddings + cosine),
the token environment `env`, the LLM call `llmInvoke`, the prompt builder
`build` (absent = `None`), and the wall-clock values `timestamp`/`elapsed`. -/
def run_prompt_paper (st : PaperState) (retriever_model : String)
    (n_top_chunks : Nat) (model : String) (retriever_query : List Char)
    (promptBuild : Option (List Char → List Char)) (query : String)
    (sim : List Char → Int) (env : TokenEnv)
    (llmInvoke : List Char → List Char) (timestamp : String) (elapsed : Nat) :
    Except String (PaperState × List PromptEvent) :=
  match promptBuild with
  | none =>
    .ok (st, [.logged ⟨.error, "retriever_query and prompt must be provided."⟩])
  | some build =>
    if retriever_query.isEmpty then
      .ok (st, [.logged ⟨.error, "retriever_query and prompt must be provided."⟩])
    else if st.text.isEmpty then
      .error "Text is required for chunking."
    else if !pyTruthy (ragContext sim st.text n_top_chunks).1 then
      .error "Text is required for LLM generation."
    else
      .ok
        (⟨st.text,
          st.runs ++
            [⟨runName st.runs.length, retriever_model, model, n_top_chunks,
              query, timestamp, retriever_query,
              ragBuiltPrompt build sim st.text n_top_chunks,
              (ragAnswer env llmInvoke build sim st.text n_top_chunks).1,
              elapsed⟩],
          st.movedToModelDir ||
            ((ragAnswer env llmInvoke build sim st.text n_top_chunks).1 =
              "model".toList)⟩,
         (pipelineLogs env llmInvoke build sim st.text n_top_chunks).map .logged ++
           (PromptEvent.runRecorded (runName st.runs.length)
              (ragAnswer env llmInvoke build sim st.text n_top_chunks).1 ::
             ((if (ragAnswer env llmInvoke build sim st.text n_top_chunks).1 =
                  "model".toList then
                 [PromptEvent.fileMoved]
               else []) ++
              [PromptEvent.elapsedRecorded (runName st.runs.length)])))

/-- Criticality test on events, for counting critical-level log lines. -/
def isCriticalEvt : PromptEvent → Bool
  | .logged ⟨.critical, _⟩ => true
  | _ => false

/-- Test for the run-group creation event. -/
def isRunRecEvt : PromptEvent → Bool
  | .runRecorded _ _ => true
  | _ => false

/-- Test for the file-relocation event. -/
def isMovedEvt : PromptEvent → Bool
  | .fileMoved => true
  | _ => false

/-- Test for the late `elapsed_time` attribute write. -/
def isElapsedEvt : PromptEvent → Bool
  | .elapsedRecorded _ => true
  | _ => false

/-- First index of an event satisfying `p`. -/
def firstIdxP (p : PromptEvent → Bool) : List PromptEvent → Option Nat
  | [] => none
  | e :: rest => if p e then some 0 else (firstIdxP p rest).map (· + 1)

/-- Run identifiers are the zero-padded position of each entry. -/
def wellNumbered (runs : List RunRecord) : Prop :=
  ∀ i, (h : i < runs.length) → (runs.get ⟨i, h⟩).runId = runName i

/-- Run log of a `run_prompt_paper` result (empty on an exception). -/
def runsOf : Except String (PaperState × List PromptEvent) → List RunRecord
  | .ok pr => pr.1.runs
  | .error _ => []

/-- Event trace of a `run_prompt_paper` result (empty on an exception). -/
def evsOf : Except String (PaperState × List PromptEvent) → List PromptEvent
  | .ok pr => pr.2
  | .error _ => []

/-! ## Lemmas about the pipeline -/

theorem ragContext_logs_of_truthy (sim : List Char → Int) (text : List Char)
    (nt : Nat) (h : pyTruthy (ragContext sim text nt).1 = true) :
    (ragContext sim text nt).2 = [⟨.info, "Top chunks retrieved"⟩] := by
  by_cases hc : (ragChunks text).isEmpty
  · exfalso
    unfold ragContext get_relevant_chunks at h
    rw [if_pos hc] at h
    simp [pyTruthy] at h
  · unfold ragContext get_relevant_chunks
    rw [if_neg hc]

theorem ragAnswer_of_over_budget (env : TokenEnv)
    (inv build : List Char → List Char) (sim : List Char → Int)
    (text : List Char) (nt : Nat) (hav : env.available = true)
    (hover : env.tokensLimit < env.countTokens (ragBuiltPrompt build sim text nt)) :
    (ragAnswer env inv build sim text nt).1 = [] ∧
    (ragAnswer env inv build sim text nt).2 =
      [⟨.critical, "Prompt is too long for the context window."⟩] := by
  have hck : check_tokens_limit env (ragBuiltPrompt build sim text nt) =
      (false, [⟨.critical, "Prompt is too long for the context window."⟩]) := by
    simp [check_tokens_limit, hav, hover]
  constructor <;> simp [ragAnswer, generate, hck]

theorem firstIdxP_logged_append (p : PromptEvent → Bool)
    (hl : ∀ e, p (.logged e) = false) :
    ∀ (L : List LogEvent) (rest : List PromptEvent),
      firstIdxP p (L.map .logged ++ rest) =
        (firstIdxP p rest).map (· + L.length)
  | [], rest => by
    cases h : firstIdxP p rest <;> simp [h]
  | e :: L, rest => by
    have h1 := firstIdxP_logged_append p hl L rest
    simp only [List.map_cons, List.cons_append, firstIdxP, hl e,
      Bool.false_eq_true, if_false, List.append_eq]
    rw [h1]
    cases h : firstIdxP p rest
    · simp
    · simp
      omega

/-! ## Claim C1: token-budget rejection and the run log -/

/-- Fixture: a paper with text `"hello world"` and an empty run log. -/
def stH : PaperState := ⟨"hello world".toList, [], false⟩

/-- Fixture: tokenizer available, every prompt counts 200000 tokens, limit
131072 (the declared `deepseek-r1` context window) — every generation
attempt exceeds the budget. -/
def envOver : TokenEnv := ⟨true, fun _ => 200000, 131072⟩

/-- Fixture: tokenizer available, every prompt counts 10 tokens, limit
131072 — the budget check always passes. -/
def envOK : TokenEnv := ⟨true, fun _ => 10, 131072⟩

set_option maxRecDepth 100000 in
/-- C1 counterexample: a generation attempt whose prompt exceeds the declared
context window returns the empty answer and logs exactly one critical-level
event, but — contrary to the claim — a run record IS appended for that
attempt: `run_prompt_paper` stores the (empty) answer unconditionally. -/
theorem c1_counterexample :
    ((runsOf (run_prompt_paper stH "all-MiniLM-L6-v2" 5 "gpt-oss:20b"
        "q".toList (some (fun t => t)) "material_formula" (fun _ => 0) envOver
        (fun _ => "ans".toList) "t0" 7)).map RunRecord.answer_ds = [[]]) ∧
    ((evsOf (run_prompt_paper stH "all-MiniLM-L6-v2" 5 "gpt-oss:20b"
        "q".toList (some (fun t => t)) "material_formula" (fun _ => 0) envOver
        (fun _ => "ans".toList) "t0" 7)).filter isCriticalEvt).length = 1 ∧
    runsOf (run_prompt_paper stH "all-MiniLM-L6-v2" 5 "gpt-oss:20b"
        "q".toList (some (fun t => t)) "material_formula" (fun _ => 0) envOver
        (fun _ => "ans".toList) "t0" 7) ≠ [] := by
  refine ⟨rfl, rfl, ?_⟩
  decide

/-- C1 (amended): for every generation attempt whose prompt's estimated token
count exceeds the selected model's declared context window, the generator
returns the empty string and exactly one critical-level event is logged, but
the run record is still appended to the per-document run log, carrying the
empty answer. -/
theorem c1_token_budget (st : PaperState) (rm : String) (nt : Nat)
    (m : String) (rq : List Char) (build : List Char → List Char) (q : String)
    (sim : List Char → Int) (env : TokenEnv) (inv : List Char → List Char)
    (ts : String) (el : Nat) (st' : PaperState) (evs : List PromptEvent)
    (hok : run_prompt_paper st rm nt m rq (some build) q sim env inv ts el =
      Except.ok (st', evs))
    (hrq : rq ≠ [])
    (hav : env.available = true)
    (hover : env.tokensLimit <
      env.countTokens (ragBuiltPrompt build sim st.text nt)) :
    (∃ r, st'.runs = st.runs ++ [r] ∧ r.answer_ds = []) ∧
    (evs.filter isCriticalEvt).length = 1 := by
  unfold run_prompt_paper at hok
  split at hok
  · rename_i heq
    exact Option.noConfusion heq
  · rename_i buildX heq
    injection heq with hb
    subst hb
    split at hok
    · rename_i hrqI
      exact absurd (List.isEmpty_iff.mp hrqI) hrq
    · split at hok
      · cases hok
      · split at hok
        · cases hok
        · rename_i h1 h2 h3
          injection hok with h
          injection h with hst hevs
          obtain ⟨hans1, hans2⟩ :=
            ragAnswer_of_over_budget env inv build sim st.text nt hav hover
          have htruthy : pyTruthy (ragContext sim st.text nt).1 = true := by
            simpa using h3
          have hctx := ragContext_logs_of_truthy sim st.text nt htruthy
          constructor
          · refine ⟨_, by rw [← hst], ?_⟩
            exact hans1
          · rw [← hevs]
            simp [pipelineLogs, hctx, hans1, hans2, isCriticalEvt,
              List.filter_append, List.filter]

set_option maxRecDepth 100000 in
/-- C1 witness: the concrete over-budget scenario, with the state and event
trace spelled out. -/
theorem c1_witness :
    (∃ r,
        (⟨"hello world".toList,
          [⟨"run_0000", "all-MiniLM-L6-v2", "gpt-oss:20b", 5,
            "material_formula", "t0", "q".toList, "hello world".toList, [],
            7⟩], false⟩ : PaperState).runs = stH.runs ++ [r] ∧
        r.answer_ds = []) ∧
    (([PromptEvent.logged ⟨.info, "Text chunked into parts"⟩,
       .logged ⟨.info, "Loaded SentenceTransformer model"⟩,
       .logged ⟨.info, "Top chunks retrieved"⟩,
       .logged ⟨.info, "LLM model"⟩,
       .logged ⟨.critical, "Prompt is too long for the context window."⟩,
       .runRecorded "run_0000" [],
       .elapsedRecorded "run_0000"].filter isCriticalEvt).length = 1) :=
  c1_token_budget stH "all-MiniLM-L6-v2" 5 "gpt-oss:20b" "q".toList
    (fun t => t) "material_formula" (fun _ => 0) envOver
    (fun _ => "ans".toList) "t0" 7 _ _ rfl (by decide) rfl (by decide)

/-! ## Claim C4: run identifiers count the existing entries -/

/-- C4: every append performed by `run_prompt_paper` names the new run by
counting the existing run entries and zero-padding
(`f"run_{len(existing_runs):04d}"`), so — by the preserved invariant — for a
fixed document under a single writer with no out-of-band deletions,
consecutive appends produce `run_0000`, `run_0001`, `run_0002`, …, regardless
of which query or model each run used. -/
theorem c4_run_id_assignment (st : PaperState) (rm : String) (nt : Nat)
    (m : String) (rq : List Char) (pb : Option (List Char → List Char))
    (q : String) (sim : List Char → Int) (env : TokenEnv)
    (inv : List Char → List Char) (ts : String) (el : Nat) (st' : PaperState)
    (evs : List PromptEvent)
    (hok : run_prompt_paper st rm nt m rq pb q sim env inv ts el =
      Except.ok (st', evs)) :
    (st'.runs = st.runs ∨
      ∃ r, st'.runs = st.runs ++ [r] ∧ r.runId = runName st.runs.length) ∧
    (wellNumbered st.runs → wellNumbered st'.runs) := by
  unfold run_prompt_paper at hok
  have finish_append : ∀ r : RunRecord, r.runId = runName st.runs.length →
      st'.runs = st.runs ++ [r] →
      (st'.runs = st.runs ∨
        ∃ r, st'.runs = st.runs ++ [r] ∧ r.runId = runName st.runs.length) ∧
      (wellNumbered st.runs → wellNumbered st'.runs) := by
    intro r hr happ
    constructor
    · exact Or.inr ⟨r, happ, hr⟩
    · intro hw
      rw [happ]
      intro i hi
      rw [List.get_eq_getElem]
      rcases Nat.lt_or_ge i st.runs.length with hlt | hge
      · rw [List.getElem_append_left hlt]
        have h4 := hw i hlt
        rw [List.get_eq_getElem] at h4
        exact h4
      · have hieq : i = st.runs.length := by
          simp only [List.length_append, List.length_cons, List.length_nil] at hi
          omega
        rw [List.getElem_concat_length _ _ _ hieq, hieq]
        exact hr
  split at hok
  · injection hok with h
    injection h with hst _
    subst hst
    exact ⟨Or.inl rfl, fun hw => hw⟩
  · split at hok
    · injection hok with h
      injection h with hst _
      subst hst
      exact ⟨Or.inl rfl, fun hw => hw⟩
    · split at hok
      · cases hok
      · split at hok
        · cases hok
        · injection hok with h
          injection h with hst _
          exact finish_append _ rfl (by rw [← hst])

set_option maxRecDepth 100000 in
/-- C4 witness: two consecutive successful runs from an empty run log, with
different queries and models, produce `run_0000` then `run_0001`. -/
theorem c4_witness :
    ((runsOf (run_prompt_paper
        ⟨"hello world".toList,
          [⟨"run_0000", "all-MiniLM-L6-v2", "gpt-oss:20b", 5,
            "material_formula", "t0", "q".toList, "hello world".toList,
            "an answer".toList, 7⟩], false⟩
        "other-retriever" 3 "llama3.1" "q2".toList (some (fun t => t))
        "other_query" (fun _ => 0) envOK (fun _ => "second".toList) "t1"
        9)).map RunRecord.runId = ["run_0000", "run_0001"]) ∧
    ((⟨"hello world".toList,
        [⟨"run_0000", "all-MiniLM-L6-v2", "gpt-oss:20b", 5,
          "material_formula", "t0", "q".toList, "hello world".toList,
          "an answer".toList, 7⟩,
         ⟨"run_0001", "other-retriever", "llama3.1", 3, "other_query", "t1",
          "q2".toList, "hello world".toList, "second".toList, 9⟩],
        false⟩ : PaperState).runs =
        [⟨"run_0000", "all-MiniLM-L6-v2", "gpt-oss:20b", 5,
          "material_formula", "t0", "q".toList, "hello world".toList,
          "an answer".toList, 7⟩] ∨
      ∃ r, (⟨"hello world".toList,
        [⟨"run_0000", "all-MiniLM-L6-v2", "gpt-oss:20b", 5,
          "material_formula", "t0", "q".toList, "hello world".toList,
          "an answer".toList, 7⟩,
         ⟨"run_0001", "other-retriever", "llama3.1", 3, "other_query", "t1",
          "q2".toList, "hello world".toList, "second".toList, 9⟩],
        false⟩ : PaperState).runs =
        [⟨"run_0000", "all-MiniLM-L6-v2", "gpt-oss:20b", 5,
          "material_formula", "t0", "q".toList, "hello world".toList,
          "an answer".toList, 7⟩] ++ [r] ∧ r.runId = runName 1) :=
  ⟨by decide,
    (c4_run_id_assignment
      ⟨"hello world".toList,
        [⟨"run_0000", "all-MiniLM-L6-v2", "gpt-oss:20b", 5,
          "material_formula", "t0", "q".toList, "hello world".toList,
          "an answer".toList, 7⟩], false⟩
      "other-retriever" 3 "llama3.1" "q2".toList (some (fun t => t))
      "other_query" (fun _ => 0) envOK (fun _ => "second".toList) "t1" 9
      _ _ rfl).1⟩

/-! ## Claim C5: the sentinel answer "model" and the file relocation -/

set_option maxRecDepth 100000 in
/-- C5 counterexample: when the cleaned answer equals `"model"`, the run
group with its datasets and all attributes *except* `elapsed_time` is created
(event index 4), then the file is relocated (index 5), and only afterwards is
the `elapsed_time` attribute written (index 6).  The complete run record
including all its attributes is therefore NOT appended before the relocation
occurs — the `elapsed_time` attribute is written after it. -/
theorem c5_counterexample :
    firstIdxP isRunRecEvt (evsOf (run_prompt_paper stH "all-MiniLM-L6-v2" 5
        "gpt-oss:20b" "q".toList (some (fun t => t)) "material_formula"
        (fun _ => 0) envOK (fun _ => "model".toList) "t0" 7)) = some 4 ∧
    firstIdxP isMovedEvt (evsOf (run_prompt_paper stH "all-MiniLM-L6-v2" 5
        "gpt-oss:20b" "q".toList (some (fun t => t)) "material_formula"
        (fun _ => 0) envOK (fun _ => "model".toList) "t0" 7)) = some 5 ∧
    firstIdxP isElapsedEvt (evsOf (run_prompt_paper stH "all-MiniLM-L6-v2" 5
        "gpt-oss:20b" "q".toList (some (fun t => t)) "material_formula"
        (fun _ => 0) envOK (fun _ => "model".toList) "t0" 7)) = some 6 ∧
    (5 : Nat) < 6 := by
  refine ⟨rfl, rfl, rfl, by decide⟩

/-- C5 (amended): for every run whose cleaned answer equals the literal
string `"model"`, the source document file is relocated into a `model/`
subdirectory of its original parent folder, and the run record is appended
before the relocation occurs *except for its `elapsed_time` attribute*, which
is written only after the relocation; for any other cleaned answer the file
is not moved. -/
theorem c5_record_before_move (st : PaperState) (rm : String) (nt : Nat)
    (m : String) (rq : List Char) (build : List Char → List Char) (q : String)
    (sim : List Char → Int) (env : TokenEnv) (inv : List Char → List Char)
    (ts : String) (el : Nat) (st' : PaperState) (evs : List PromptEvent)
    (r : RunRecord)
    (hok : run_prompt_paper st rm nt m rq (some build) q sim env inv ts el =
      Except.ok (st', evs))
    (happ : st'.runs = st.runs ++ [r]) :
    (r.answer_ds = "model".toList →
      st'.movedToModelDir = true ∧
      ∃ i j k, firstIdxP isRunRecEvt evs = some i ∧
        firstIdxP isMovedEvt evs = some j ∧
        firstIdxP isElapsedEvt evs = some k ∧ i < j ∧ j < k) ∧
    (r.answer_ds ≠ "model".toList →
      firstIdxP isMovedEvt evs = none) := by
  unfold run_prompt_paper at hok
  split at hok
  · rename_i heq
    exact Option.noConfusion heq
  · rename_i buildX heq
    injection heq with hb
    subst hb
    split at hok
    · injection hok with h
      injection h with hst _
      rw [← hst] at happ
      exact absurd (congrArg List.length happ) (by simp)
    · split at hok
      · cases hok
      · split at hok
        · cases hok
        · injection hok with h
          injection h with hst hevs
          have hrec : r = ⟨runName st.runs.length, rm, m, nt, q, ts, rq,
              ragBuiltPrompt build sim st.text nt,
              (ragAnswer env inv build sim st.text nt).1, el⟩ := by
            rw [← hst] at happ
            simp only [PaperState.runs] at happ
            have h5 := List.append_cancel_left happ
            injection h5 with h6 _
            exact h6.symm
          have hans : r.answer_ds =
              (ragAnswer env inv build sim st.text nt).1 := by
            rw [hrec]
          constructor
          · intro hmodel
            have hmodel' : (ragAnswer env inv build sim st.text nt).1 =
                "model".toList := by rw [← hans, hmodel]
            constructor
            · rw [← hst]
              simp [hmodel']
            · rw [← hevs]
              rw [firstIdxP_logged_append isRunRecEvt (fun e => rfl),
                firstIdxP_logged_append isMovedEvt (fun e => rfl),
                firstIdxP_logged_append isElapsedEvt (fun e => rfl)]
              refine ⟨(pipelineLogs env inv build sim st.text nt).length,
                (pipelineLogs env inv build sim st.text nt).length + 1,
                (pipelineLogs env inv build sim st.text nt).length + 2,
                ?_, ?_, ?_, by omega, by omega⟩
              · simp [firstIdxP, isRunRecEvt]
              · simp [firstIdxP, isMovedEvt, isRunRecEvt, hmodel']
                omega
              · simp [firstIdxP, isElapsedEvt, isRunRecEvt, isMovedEvt,
                  hmodel']
                omega
          · intro hne
            have hne' : ¬(ragAnswer env inv build sim st.text nt).1 =
                "model".toList := by rw [← hans]; exact hne
            rw [← hevs]
            rw [firstIdxP_logged_append isMovedEvt (fun e => rfl)]
            rw [if_neg hne']
            simp [firstIdxP, isMovedEvt]

set_option maxRecDepth 100000 in
/-- C5 witness: the concrete `"model"`-answer scenario with its event trace
spelled out: run record at index 4, the move at index 5, the `elapsed_time`
attribute write at index 6; and the state is marked relocated. -/
theorem c5_witness :
    (("model".toList = "model".toList →
      (⟨"hello world".toList,
        [⟨"run_0000", "all-MiniLM-L6-v2", "gpt-oss:20b", 5,
          "material_formula", "t0", "q".toList, "hello world".toList,
          "model".toList, 7⟩], true⟩ : PaperState).movedToModelDir = true ∧
      ∃ i j k,
        firstIdxP isRunRecEvt
          [PromptEvent.logged ⟨.info, "Text chunked into parts"⟩,
           .logged ⟨.info, "Loaded SentenceTransformer model"⟩,
           .logged ⟨.info, "Top chunks retrieved"⟩,
           .logged ⟨.info, "LLM model"⟩,
           .runRecorded "run_0000" "model".toList,
           .fileMoved,
           .elapsedRecorded "run_0000"] = some i ∧
        firstIdxP isMovedEvt
          [PromptEvent.logged ⟨.info, "Text chunked into parts"⟩,
           .logged ⟨.info, "Loaded SentenceTransformer model"⟩,
           .logged ⟨.info, "Top chunks retrieved"⟩,
           .logged ⟨.info, "LLM model"⟩,
           .runRecorded "run_0000" "model".toList,
           .fileMoved,
           .elapsedRecorded "run_0000"] = some j ∧
        firstIdxP isElapsedEvt
          [PromptEvent.logged ⟨.info, "Text chunked into parts"⟩,
           .logged ⟨.info, "Loaded SentenceTransformer model"⟩,
           .logged ⟨.info, "Top chunks retrieved"⟩,
           .logged ⟨.info, "LLM model"⟩,
           .runRecorded "run_0000" "model".toList,
           .fileMoved,
           .elapsedRecorded "run_0000"] = some k ∧ i < j ∧ j < k) ∧
     ("model".toList ≠ "model".toList →
      firstIdxP isMovedEvt
        [PromptEvent.logged ⟨.info, "Text chunked into parts"⟩,
         .logged ⟨.info, "Loaded SentenceTransformer model"⟩,
         .logged ⟨.info, "Top chunks retrieved"⟩,
         .logged ⟨.info, "LLM model"⟩,
         .runRecorded "run_0000" "model".toList,
         .fileMoved,
         .elapsedRecorded "run_0000"] = none)) :=
  c5_record_before_move stH "all-MiniLM-L6-v2" 5 "gpt-oss:20b" "q".toList
    (fun t => t) "material_formula" (fun _ => 0) envOK
    (fun _ => "model".toList) "t0" 7 _ _
    ⟨"run_0000", "all-MiniLM-L6-v2", "gpt-oss:20b", 5, "material_formula",
      "t0", "q".toList, "hello world".toList, "model".toList, 7⟩ rfl rfl

/-! ## `ArxivFetcher.fetch` (src/ragxiv/text/arxiv_extractor.py)

`fetch` loads the ledger file into the in-memory set `fetched_ids`, then
paginates: each page of the feed is either empty — `if not papers:` logs
"No papers found in the response" and returns `[]` immediately, *without*
writing anything to the ledger and discarding any papers collected from
earlier pages — or is processed entry by entry: an entry whose title
contains `"Error"` or without a valid `arxiv.org` URL id is logged and
skipped; an id already in `fetched_ids` is skipped silently; otherwise an
`ArxivPaper` is built, appended to `new_papers`, its id added to
`fetched_ids`, and the entry loop breaks once `max_results` papers are
collected.  The page loop re-checks `len(new_papers) < max_results` and on
completion appends all collected ids to the ledger file (`if new_papers:`).
The page stream is modelled as the list of successive feed responses;
running past its end behaves as the catalog answering an empty feed, which
matches the arXiv API beyond the last result.  Of each feed entry only the
fields that drive control flow are modelled (`title`, `id`); the remaining
fields (summary, authors, categories, comment, timestamps) are copied into
the resulting `ArxivPaper` without influencing which papers are returned or
what reaches the ledger, and this version of `fetch` performs no summary
check. -/

structure Entry where
  title : String
  urlId : Option String
deriving DecidableEq, Repr

/-- The identifying fields of an `ArxivPaper` produced by `fetch` (`id` and
the URL it was derived from). -/
structure FetchedPaper where
  id : String
  url : String
deriving DecidableEq, Repr

/-- `url_id.split("/")[-1].replace(".pdf", "")`: take the last
slash-separated component and delete every occurrence of `".pdf"`
(replacement by the empty string is splitting on the pattern and
concatenating the parts). -/
def arxivIdOf (urlId : String) : String :=
  String.mk
    ((splitOnSep ".pdf".toList
      ((splitOnSep "/".toList urlId.toList).getLastD [])).flatten)

/-- `not url_id or "arxiv.org" not in url_id` (negated): a present,
non-empty id containing `"arxiv.org"`. -/
def entryValidUrl (u : String) : Bool :=
  !u.toList.isEmpty && containsSub "arxiv.org".toList u.toList

/-- The entry loop of one page (`for paper in papers:`), carrying the
in-memory `fetched_ids`, the accumulated `new_papers` and the log, and
breaking once `max_results` papers have been collected. -/
def processEntries (maxResults : Nat) :
    List Entry → List String → List FetchedPaper → List LogEvent →
      List String × List FetchedPaper × List LogEvent
  | [], fetched, acc, logs => (fetched, acc, logs)
  | e :: rest, fetched, acc, logs =>
    if containsSub "Error".toList e.title.toList then
      processEntries maxResults rest fetched acc
        (logs ++ [⟨.error, "Error fetching the paper"⟩])
    else
      match e.urlId with
      | none =>
        processEntries maxResults rest fetched acc
          (logs ++ [⟨.error, "Paper without a valid URL id"⟩])
      | some u =>
        if !entryValidUrl u then
          processEntries maxResults rest fetched acc
            (logs ++ [⟨.error, "Paper without a valid URL id"⟩])
        else if fetched.contains (arxivIdOf u) then
          processEntries maxResults rest fetched acc logs
        else if maxResults ≤ (acc ++ [(⟨arxivIdOf u, u⟩ : FetchedPaper)]).length then
          (arxivIdOf u :: fetched, acc ++ [(⟨arxivIdOf u, u⟩ : FetchedPaper)],
            logs ++ [⟨.info, "Paper fetched from arXiv."⟩])
        else
          processEntries maxResults rest (arxivIdOf u :: fetched)
            (acc ++ [(⟨arxivIdOf u, u⟩ : FetchedPaper)])
            (logs ++ [⟨.info, "Paper fetched from arXiv."⟩])

/-- The page loop (`while len(new_papers) < self.max_results:`).  An empty
feed returns `[]` at once, discarding `acc`; exhausting the modelled page
stream behaves identically (the catalog would answer an empty feed). -/
def fetchLoop (maxResults : Nat) :
    List (List Entry) → List String → List FetchedPaper → List LogEvent →
      List FetchedPaper × List LogEvent
  | [], _, acc, logs =>
    if maxResults ≤ acc.length then (acc, logs)
    else ([], logs ++ [⟨.info, "No papers found in the response"⟩])
  | p :: rest, fetched, acc, logs =>
    if maxResults ≤ acc.length then (acc, logs)
    else if p.isEmpty then
      ([], logs ++ [⟨.info, "No papers found in the response"⟩])
    else
      fetchLoop maxResults rest
        (processEntries maxResults p fetched acc logs).1
        (processEntries maxResults p fetched acc logs).2.1
        (processEntries maxResults p fetched acc logs).2.2

/-- `ArxivFetcher.fetch(fetched_ids_path, batch_size)`: returns the list of
new papers, the ledger contents after the call, and the log.  The ledger
file is modelled as its list of identifier lines; the initial `fetched_ids`
set is exactly that list.  On the success path the newly collected ids are
appended (`if new_papers:`), one line per paper, after the whole batch; the
empty-feed return path never reaches the append, and since it returns `[]`
the unconditional `ledger ++ ids` below is the identity there, so the
`if new_papers:` guard needs no separate case. -/
def fetch (maxResults : Nat) (pages : List (List Entry))
    (ledger : List String) :
    List FetchedPaper × List String × List LogEvent :=
  ((fetchLoop maxResults pages ledger [] []).1,
   ledger ++ ((fetchLoop maxResults pages ledger [] []).1.map FetchedPaper.id),
   (fetchLoop maxResults pages ledger [] []).2)

/-! ## Lemmas about `fetch` -/

theorem processEntries_length (m : Nat) :
    ∀ (es : List Entry) (fetched : List String) (acc : List FetchedPaper)
      (logs : List LogEvent), acc.length < m →
      (processEntries m es fetched acc logs).2.1.length ≤ m
  | [], _, acc, _, h => by
    unfold processEntries
    exact Nat.le_of_lt h
  | e :: rest, fetched, acc, logs, h => by
    unfold processEntries
    split
    · exact processEntries_length m rest fetched acc _ h
    · split
      · exact processEntries_length m rest fetched acc _ h
      · split
        · exact processEntries_length m rest fetched acc _ h
        · split
          · exact processEntries_length m rest fetched acc logs h
          · split
            · simp only []
              simp [List.length_append]
              omega
            · rename_i hlen
              refine processEntries_length m rest _ _ _ ?_
              simp only [List.length_append, List.length_cons,
                List.length_nil] at hlen ⊢
              omega

theorem fetchLoop_length (m : Nat) :
    ∀ (pages : List (List Entry)) (fetched : List String)
      (acc : List FetchedPaper) (logs : List LogEvent), acc.length ≤ m →
      (fetchLoop m pages fetched acc logs).1.length ≤ m
  | [], _, acc, _, h => by
    unfold fetchLoop
    split
    · exact h
    · simp
  | p :: rest, fetched, acc, logs, h => by
    unfold fetchLoop
    split
    · exact h
    · split
      · simp
      · rename_i hlt
        refine fetchLoop_length m rest _ _ _ ?_
        exact processEntries_length m p fetched acc logs (by omega)

theorem processEntries_inv (m : Nat) (ledger : List String) :
    ∀ (es : List Entry) (fetched : List String) (acc : List FetchedPaper)
      (logs : List LogEvent),
      (∀ x ∈ ledger, x ∈ fetched) →
      (∀ q ∈ acc, q.id ∈ fetched) →
      (acc.map FetchedPaper.id).Nodup →
      (∀ q ∈ acc, q.id ∉ ledger) →
      (∀ x ∈ ledger, x ∈ (processEntries m es fetched acc logs).1) ∧
      (∀ q ∈ (processEntries m es fetched acc logs).2.1,
        q.id ∈ (processEntries m es fetched acc logs).1) ∧
      ((processEntries m es fetched acc logs).2.1.map FetchedPaper.id).Nodup ∧
      (∀ q ∈ (processEntries m es fetched acc logs).2.1, q.id ∉ ledger)
  | [], fetched, acc, logs, h1, h2, h3, h4 => by
    unfold processEntries
    exact ⟨h1, h2, h3, h4⟩
  | e :: rest, fetched, acc, logs, h1, h2, h3, h4 => by
    unfold processEntries
    split
    · exact processEntries_inv m ledger rest fetched acc _ h1 h2 h3 h4
    · split
      · exact processEntries_inv m ledger rest fetched acc _ h1 h2 h3 h4
      · rename_i u hu
        split
        · exact processEntries_inv m ledger rest fetched acc _ h1 h2 h3 h4
        · split
          · exact processEntries_inv m ledger rest fetched acc logs h1 h2 h3 h4
          · rename_i hvalid hcont
            have hnew : arxivIdOf u ∉ fetched := by
              intro hmem
              exact hcont (List.elem_iff.mpr hmem)
            have h1' : ∀ x ∈ ledger, x ∈ arxivIdOf u :: fetched :=
              fun x hx => List.mem_cons_of_mem _ (h1 x hx)
            have h2' : ∀ q ∈ acc ++ [(⟨arxivIdOf u, u⟩ : FetchedPaper)],
                q.id ∈ arxivIdOf u :: fetched := by
              intro q hq
              rcases List.mem_append.mp hq with hq | hq
              · exact List.mem_cons_of_mem _ (h2 q hq)
              · rw [List.mem_singleton] at hq
                subst hq
                exact List.mem_cons_self _ _
            have h3' : ((acc ++ [(⟨arxivIdOf u, u⟩ : FetchedPaper)]).map
                FetchedPaper.id).Nodup := by
              rw [List.map_append, List.nodup_append]
              refine ⟨h3, List.nodup_singleton _, ?_⟩
              intro x hx hx'
              simp only [List.map_cons, List.map_nil,
                List.mem_singleton] at hx'
              subst hx'
              obtain ⟨q, hq, hqid⟩ := List.mem_map.mp hx
              exact hnew (hqid ▸ h2 q hq)
            have h4' : ∀ q ∈ acc ++ [(⟨arxivIdOf u, u⟩ : FetchedPaper)],
                q.id ∉ ledger := by
              intro q hq
              rcases List.mem_append.mp hq with hq | hq
              · exact h4 q hq
              · rw [List.mem_singleton] at hq
                subst hq
                exact fun hl => hnew (h1 _ hl)
            split
            · exact ⟨h1', h2', h3', h4'⟩
            · exact processEntries_inv m ledger rest _ _ _ h1' h2' h3' h4'

theorem fetchLoop_inv (m : Nat) (ledger : List String) :
    ∀ (pages : List (List Entry)) (fetched : List String)
      (acc : List FetchedPaper) (logs : List LogEvent),
      (∀ x ∈ ledger, x ∈ fetched) →
      (∀ q ∈ acc, q.id ∈ fetched) →
      (acc.map FetchedPaper.id).Nodup →
      (∀ q ∈ acc, q.id ∉ ledger) →
      ((fetchLoop m pages fetched acc logs).1.map FetchedPaper.id).Nodup ∧
      (∀ q ∈ (fetchLoop m pages fetched acc logs).1, q.id ∉ ledger)
  | [], fetched, acc, logs, _, _, h3, h4 => by
    unfold fetchLoop
    split
    · exact ⟨h3, h4⟩
    · simp
  | p :: rest, fetched, acc, logs, h1, h2, h3, h4 => by
    unfold fetchLoop
    split
    · exact ⟨h3, h4⟩
    · split
      · simp
      · obtain ⟨h1', h2', h3', h4'⟩ :=
          processEntries_inv m ledger p fetched acc logs h1 h2 h3 h4
        exact fetchLoop_inv m ledger rest _ _ _ h1' h2' h3' h4'

/-! ## Claim C3: pagination and the empty page -/

/-- Fixture: a valid catalog entry. -/
def entryA : Entry := ⟨"A good paper", some "http://arxiv.org/abs/2501.00001v1"⟩

/-- Fixture: a second valid catalog entry. -/
def entryB : Entry := ⟨"Another paper", some "http://arxiv.org/abs/2501.00002v1"⟩

set_option maxRecDepth 100000 in
/-- C3 counterexample: with target count 2, a first page containing one
(collectible) valid entry and a second page with zero entries, the call
returns the empty list — discarding the document already collected — and
appends nothing to the ledger; the claim says the documents collected so far
are the result.  That the first-page entry is indeed collectible is shown by
the same call with target count 1, which returns it and records its id. -/
theorem c3_counterexample :
    (fetch 2 [[entryA], []] []).1 = [] ∧
    (fetch 2 [[entryA], []] []).2.1 = [] ∧
    (fetch 1 [[entryA]] []).1 =
      [⟨"2501.00001v1", "http://arxiv.org/abs/2501.00001v1"⟩] ∧
    (fetch 1 [[entryA]] []).2.1 = ["2501.00001v1"] := by
  refine ⟨rfl, rfl, rfl, rfl⟩

/-- C3 (amended): every fetch call with target count `N` produces at most
`N` documents, none of which is already in the ledger, and stops paginating
when `N` results have been collected; but a page returning zero entries makes
the whole call return the empty list — discarding any documents collected
from earlier pages — leave the ledger untouched, and log one "no papers
found" event (a normal return, not a failure). -/
theorem c3_pagination (m : Nat) (pages : List (List Entry))
    (ledger : List String) :
    (fetch m pages ledger).1.length ≤ m ∧
    (∀ q ∈ (fetch m pages ledger).1, q.id ∉ ledger) ∧
    (0 < m → ∀ rest : List (List Entry),
      fetch m ([] :: rest) ledger =
        ([], ledger, [⟨.info, "No papers found in the response"⟩])) := by
  refine ⟨?_, ?_, ?_⟩
  · exact fetchLoop_length m pages ledger [] [] (by simp)
  · exact (fetchLoop_inv m ledger pages ledger [] []
      (fun x hx => hx) (by simp) (by simp) (by simp)).2
  · intro hm rest
    unfold fetch fetchLoop
    have hm' : ¬ m ≤ ([] : List FetchedPaper).length := by
      simp only [List.length_nil]
      omega
    rw [if_neg hm']
    simp

/-- C3 witness: at target count 1 and a single one-entry page the bound and
the novelty property hold, and a first empty page returns normally with the
empty list and an untouched ledger. -/
theorem c3_witness :
    (fetch 1 [[entryA]] ["9999.11111"]).1.length ≤ 1 ∧
    (⟨"2501.00001v1", "http://arxiv.org/abs/2501.00001v1"⟩ :
        FetchedPaper).id ∉ ["9999.11111"] ∧
    fetch 1 [[]] ["9999.11111"] =
      ([], ["9999.11111"], [⟨.info, "No papers found in the response"⟩]) :=
  ⟨(c3_pagination 1 [[entryA]] ["9999.11111"]).1,
   (c3_pagination 1 [[entryA]] ["9999.11111"]).2.1
     ⟨"2501.00001v1", "http://arxiv.org/abs/2501.00001v1"⟩ (by decide),
   (c3_pagination 1 [[entryA]] ["9999.11111"]).2.2 (by decide) []⟩

/-! ## Claim C2: ledger append-once and the two-call superset property -/

/-- C2: on every fetch call the ledger after the call is the old ledger with
the identifiers of the returned papers appended once, after the whole batch
(the empty-feed return path appends nothing and returns no papers, so the
equation holds on every path); every returned identifier was absent from the
ledger before the call (count 0) and occurs exactly once more afterwards, and
is present in the ledger; and for any subsequent call starting from the
resulting ledger, no returned identifier of the second call was returned by
the first. -/
theorem c2_ledger_append_once (m : Nat) (pages : List (List Entry))
    (ledger : List String) :
    (fetch m pages ledger).2.1 =
      ledger ++ ((fetch m pages ledger).1.map FetchedPaper.id) ∧
    (∀ q ∈ (fetch m pages ledger).1,
      q.id ∉ ledger ∧
      ledger.count q.id = 0 ∧
      (fetch m pages ledger).2.1.count q.id = ledger.count q.id + 1 ∧
      q.id ∈ (fetch m pages ledger).2.1) ∧
    (∀ (m2 : Nat) (pages2 : List (List Entry)),
      ∀ q ∈ (fetch m2 pages2 (fetch m pages ledger).2.1).1,
        q.id ∉ (fetch m pages ledger).1.map FetchedPaper.id) := by
  obtain ⟨hnodup, hnotin⟩ := fetchLoop_inv m ledger pages ledger [] []
    (fun x hx => hx) (by simp) (by simp) (by simp)
  have h1 : (fetch m pages ledger).2.1 =
      ledger ++ ((fetch m pages ledger).1.map FetchedPaper.id) := rfl
  refine ⟨h1, ?_, ?_⟩
  · intro q hq
    have hql : q.id ∉ ledger := hnotin q hq
    have hqmem : q.id ∈ (fetch m pages ledger).1.map FetchedPaper.id :=
      List.mem_map.mpr ⟨q, hq, rfl⟩
    refine ⟨hql, List.count_eq_zero.mpr hql, ?_, ?_⟩
    · have hcnt : List.count q.id
          ((fetch m pages ledger).1.map FetchedPaper.id) = 1 :=
        List.count_eq_one_of_mem hnodup hqmem
      rw [h1, List.count_append, hcnt]
    · rw [h1]
      exact List.mem_append.mpr (Or.inr hqmem)
  · intro m2 pages2 q hq
    have hinv2 := fetchLoop_inv m2 ((fetch m pages ledger).2.1) pages2
      ((fetch m pages ledger).2.1) [] [] (fun x hx => hx) (by simp) (by simp)
      (by simp)
    intro hqin
    exact hinv2.2 q hq (by rw [h1]; exact List.mem_append.mpr (Or.inr hqin))

set_option maxRecDepth 100000 in
/-- C2 witness: one call collecting `entryA` against a one-line ledger, then
a second call from the resulting ledger collecting `entryB`: the first
call's id is appended exactly once and is not re-returned by the second
call. -/
theorem c2_witness :
    ((fetch 1 [[entryA]] ["9999.11111"]).2.1 =
      ["9999.11111"] ++
        ((fetch 1 [[entryA]] ["9999.11111"]).1.map FetchedPaper.id)) ∧
    (⟨"2501.00001v1", "http://arxiv.org/abs/2501.00001v1"⟩ :
        FetchedPaper).id ∉ ["9999.11111"] ∧
    (fetch 1 [[entryA]] ["9999.11111"]).2.1.count "2501.00001v1" =
      (["9999.11111"] : List String).count "2501.00001v1" + 1 ∧
    (⟨"2501.00002v1", "http://arxiv.org/abs/2501.00002v1"⟩ :
        FetchedPaper).id ∉
      (fetch 1 [[entryA]] ["9999.11111"]).1.map FetchedPaper.id :=
  ⟨(c2_ledger_append_once 1 [[entryA]] ["9999.11111"]).1,
   ((c2_ledger_append_once 1 [[entryA]] ["9999.11111"]).2.1
     ⟨"2501.00001v1", "http://arxiv.org/abs/2501.00001v1"⟩ (by decide)).1,
   ((c2_ledger_append_once 1 [[entryA]] ["9999.11111"]).2.1
     ⟨"2501.00001v1", "http://arxiv.org/abs/2501.00001v1"⟩ (by decide)).2.2.1,
   (c2_ledger_append_once 1 [[entryA]] ["9999.11111"]).2.2 1
     [[entryA, entryB]]
     ⟨"2501.00002v1", "http://arxiv.org/abs/2501.00002v1"⟩ (by decide)⟩

end NERxiv
